import Mathlib

/-!
Shallow embedding of `src/modules/chat-virtualizer.js` (ChatVirtualizer v2.1).

The module virtualizes a chat transcript: off-screen `.mes` elements are
collapsed to fixed-height placeholders (the `data-perf-dehydrated` marker plus
inline `height`/`min-height`/`overflow`/`content-visibility` styles), while
viewport-adjacent and tail messages stay fully rendered.

Modelling decisions:
  * A `.mes` DOM element becomes a `Mes` record.  `offsetHeight` is the
    rendered height the browser reports for the element; the embedding keeps
    it as per-item data that the virtualizer reads but never writes (the
    two-phase bulk pass reads all heights before writing, so read order is
    immaterial here).  Membership in the JS `Set` `_visibleSet` is embedded
    as a per-item flag `inVisibleSet`; clearing the set is mapping the flag
    to `false` over all items.
  * The virtualizer instance becomes a `VState` record.  `hasContainer`
    models `_chatContainer !== null`.  The `setTimeout` handles
    (`_dehydrateTimer`, `_bulkTimer`, `_initialTimer`, `_scrollRetryTimers`)
    become pending-flags / pending-lists; `requestAnimationFrame` callbacks
    and the `Promise.resolve().then` microtask of `_forceScrollToBottom`
    become explicit pending-callback queues so that cancellation behaviour
    of `disable()` is visible in the model.
  * Each JS method becomes a state transformer `VState → VState`; the
    leading underscore of private method names is dropped.
-/

namespace ChatVirtualizer

/-- The `VirtualizerOptions` record of the source. -/
structure VirtOptions where
  bufferSize : Nat
  alwaysVisibleTail : Nat
  bulkLoadThreshold : Nat
deriving DecidableEq, Repr

/-- `DEFAULT_OPTIONS` from the source: `{ bufferSize: 2, alwaysVisibleTail: 3, bulkLoadThreshold: 15 }`. -/
def DEFAULT_OPTIONS : VirtOptions :=
  { bufferSize := 2, alwaysVisibleTail := 3, bulkLoadThreshold := 15 }

/-- One `.mes` element of the chat container.

`dehydrated` is presence of the `data-perf-dehydrated` attribute,
`heightAttr` the `data-perf-height` attribute, the four `style*` fields the
inline styles written by `_dehydrate` (`none` models the empty string `''`).
`offsetHeight` is the rendered height the element reports; `isLastMes` is
`classList.contains('last_mes')`; `editing` is the presence of visible
`.mes_edit_buttons`; `inVisibleSet` is membership in `_visibleSet`. -/
structure Mes where
  dehydrated : Bool
  heightAttr : Option Nat
  styleHeight : Option Nat
  styleMinHeight : Option Nat
  styleOverflow : Option String
  styleContentVisibility : Option String
  offsetHeight : Nat
  isLastMes : Bool
  editing : Bool
  inVisibleSet : Bool
deriving DecidableEq, Repr

/-- Default element used with `List.getD` when indexing item lists. -/
def defaultMes : Mes :=
  { dehydrated := false, heightAttr := none, styleHeight := none, styleMinHeight := none,
    styleOverflow := none, styleContentVisibility := none, offsetHeight := 0,
    isLastMes := false, editing := false, inVisibleSet := false }

/-- Pending `requestAnimationFrame` callbacks of the module.
`bulkLoadOuter`/`bulkLoadInner` are the two nested frames of `_onBulkLoad`,
`chatSwitchOuter`/`chatSwitchInner` the two nested frames of `_onChatSwitch`,
`scrollFrameOuter`/`scrollFrameInner` the two nested frames of
`_forceScrollToBottom` (strategies 3 and 4). -/
inductive FrameCB where
  | bulkLoadOuter
  | bulkLoadInner
  | chatSwitchOuter
  | chatSwitchInner
  | scrollFrameOuter
  | scrollFrameInner
deriving DecidableEq, Repr

/-- Pending microtasks: strategy 2 of `_forceScrollToBottom`. -/
inductive MicroCB where
  | scrollMicro
deriving DecidableEq, Repr

/-- The state of one `ChatVirtualizer` instance together with the container
contents and the pending deferred work it has scheduled. -/
structure VState where
  active : Bool
  hasContainer : Bool
  clientHeight : Nat
  windowInnerHeight : Nat
  scrollTop : Nat
  scrollHeight : Nat
  opts : VirtOptions
  items : List Mes
  processingBulk : Bool
  observerConnected : Bool
  mutationObserverConnected : Bool
  scrollHandlerAttached : Bool
  hydratedOverridePresent : Bool
  dehydrateTimer : Bool
  bulkTimer : Option (Nat × Nat)
  initialTimer : Bool
  scrollRetryTimers : List Nat
  frameCallbacks : List FrameCB
  microtasks : List MicroCB
deriving DecidableEq, Repr

/-- `_dehydrate(mes)`: no-op when the marker is already set, else read
`offsetHeight`, store it in both attributes and fix the inline box. -/
def dehydrateMes (mes : Mes) : Mes :=
  if mes.dehydrated then mes
  else
    { mes with
      dehydrated := true
      heightAttr := some mes.offsetHeight
      styleHeight := some mes.offsetHeight
      styleMinHeight := some mes.offsetHeight
      styleOverflow := some "hidden"
      styleContentVisibility := some "hidden" }

/-- `_hydrate(mes)`: no-op when the marker is absent, else remove both
attributes and clear the four inline styles to `''`. -/
def hydrateMes (mes : Mes) : Mes :=
  if mes.dehydrated then
    { mes with
      dehydrated := false
      heightAttr := none
      styleHeight := none
      styleMinHeight := none
      styleOverflow := none
      styleContentVisibility := none }
  else mes

/-- `this._chatContainer.clientHeight || window.innerHeight` from `_bulkDehydrate`. -/
def containerH (s : VState) : Nat :=
  if s.clientHeight = 0 then s.windowInnerHeight else s.clientHeight

/-- `Math.ceil(containerH / 150)` from `_bulkDehydrate`. -/
def visibleEstimate (s : VState) : Nat :=
  (containerH s + 149) / 150

/-- `keepCount = Math.max(visibleEstimate + bufferSize * 2, alwaysVisibleTail)`. -/
def keepCount (s : VState) : Nat :=
  max (visibleEstimate s + s.opts.bufferSize * 2) s.opts.alwaysVisibleTail

/-- Phase 2 of `_bulkDehydrate` combined with the `_visibleSet` rebuild:
items with index `< dEnd` are dehydrated (skipping already-dehydrated ones)
and dropped from the visible set, items with index `≥ dEnd` are added to the
visible set.  `j` is the index of the first element of `l` in the container. -/
def bulkWrite (dEnd : Nat) : Nat → List Mes → List Mes
  | _, [] => []
  | j, m :: rest =>
    (if j < dEnd then { dehydrateMes m with inVisibleSet := false }
     else { m with inVisibleSet := true }) :: bulkWrite dEnd (j + 1) rest

/-- `_bulkDehydrate()`: guarded by `_processingBulk`; early return when
`total ≤ alwaysVisibleTail` or `dehydrateEnd = 0`, else the two-phase pass
over the first `dehydrateEnd = max(0, total − keepCount)` items followed by
the `_visibleSet` reset to the kept tail.  (`_processingBulk` is set and then
reset in the `finally` block, so it is unchanged on return.) -/
def bulkDehydrate (s : VState) : VState :=
  if s.processingBulk then s
  else
    let total := s.items.length
    if total ≤ s.opts.alwaysVisibleTail then s
    else
      let dehydrateEnd := total - keepCount s
      if dehydrateEnd = 0 then s
      else { s with items := bulkWrite dehydrateEnd 0 s.items }

/-- The per-item loop of `_dehydrateOffscreen`: skip items in `_visibleSet`,
items at index `≥ tailStart`, the `last_mes` item, and items being edited;
dehydrate the rest.  `j` is the index of the first element of `l`. -/
def sweepItems (tailStart : Nat) : Nat → List Mes → List Mes
  | _, [] => []
  | j, m :: rest =>
    (if m.inVisibleSet then m
     else if tailStart ≤ j then m
     else if m.isLastMes then m
     else if m.editing then m
     else dehydrateMes m) :: sweepItems tailStart (j + 1) rest

/-- `_dehydrateOffscreen()`: guarded by container presence and
`_processingBulk`; sweeps every item outside the visible set and the tail. -/
def dehydrateOffscreen (s : VState) : VState :=
  if ¬ s.hasContainer ∨ s.processingBulk then s
  else
    let total := s.items.length
    let tailStart := total - s.opts.alwaysVisibleTail
    { s with items := sweepItems tailStart 0 s.items }

/-- Eligibility of an item for the budget trimmer of `_trimOnNewMessage`:
not already dehydrated, not `last_mes`, not in `_visibleSet`, not edited. -/
def eligible (m : Mes) : Bool :=
  !m.dehydrated && !m.isLastMes && !m.inVisibleSet && !m.editing

/-- The trimming loop of `_trimOnNewMessage`: walk from the front, skip
ineligible items, dehydrate eligible ones while `excess` is positive. -/
def trimItems : Nat → List Mes → List Mes
  | _, [] => []
  | 0, l => l
  | e + 1, m :: rest =>
    if eligible m then dehydrateMes m :: trimItems e rest
    else m :: trimItems (e + 1) rest

/-- Number of hydrated (non-dehydrated) items, as counted by `_trimOnNewMessage`. -/
def hydratedCount (l : List Mes) : Nat :=
  (l.filter fun m => !m.dehydrated).length

/-- Number of trim-eligible items in a list. -/
def eligCount (l : List Mes) : Nat :=
  (l.filter fun m => eligible m).length

/-- Number of trim-eligible items strictly before index `i`. -/
def eligBefore (l : List Mes) (i : Nat) : Nat :=
  eligCount (l.take i)

/-- `_trimOnNewMessage()`: guarded by container presence and
`_processingBulk`; computes `maxHydrated = alwaysVisibleTail + bufferSize*2`,
returns early when `total ≤ maxHydrated` or the hydrated count is within
budget, else trims `hydratedCount − maxHydrated` eligible items from the front. -/
def trimOnNewMessage (s : VState) : VState :=
  if ¬ s.hasContainer ∨ s.processingBulk then s
  else
    let total := s.items.length
    let maxHydrated := s.opts.alwaysVisibleTail + s.opts.bufferSize * 2
    if total ≤ maxHydrated then s
    else
      let hc := hydratedCount s.items
      if hc ≤ maxHydrated then s
      else { s with items := trimItems (hc - maxHydrated) s.items }

/-- `_rehydrateAll()`: no-op without a container, else hydrate every item
carrying the marker (hydrating an unmarked item is already a no-op). -/
def rehydrateAllItems (s : VState) : VState :=
  if ¬ s.hasContainer then s
  else { s with items := s.items.map hydrateMes }

/-- `_cancelScrollRetries()`: clear every pending scroll-retry timeout. -/
def cancelScrollRetries (s : VState) : VState :=
  { s with scrollRetryTimers := [] }

/-- `_forceScrollToBottom()`: abort without a container; cancel previous
retries, scroll immediately, then schedule the microtask, the frame pair and
the delayed retries (50/200/500 ms plus the 800 ms `scrollIntoView` fallback). -/
def forceScrollToBottom (s : VState) : VState :=
  if ¬ s.hasContainer then s
  else
    { s with
      scrollTop := s.scrollHeight
      microtasks := s.microtasks ++ [MicroCB.scrollMicro]
      frameCallbacks := s.frameCallbacks ++ [FrameCB.scrollFrameOuter]
      scrollRetryTimers := [50, 200, 500, 800] }

/-- The tail-marking loop of `_processExisting` for small chats: add every
item with index `≥ tailStart` to `_visibleSet` (no clearing).  `j` is the
index of the first element of `l`. -/
def markTailVisible (tailStart : Nat) : Nat → List Mes → List Mes
  | _, [] => []
  | j, m :: rest =>
    (if tailStart ≤ j then { m with inVisibleSet := true } else m)
      :: markTailVisible tailStart (j + 1) rest

/-- `_processExisting()`: bulk-dehydrate when `≥ bulkLoadThreshold` items are
present, else mark the last `alwaysVisibleTail` items visible; in either case
scroll to the bottom when the chat is non-empty. -/
def processExisting (s : VState) : VState :=
  let n := s.items.length
  let s1 :=
    if s.opts.bulkLoadThreshold ≤ n then bulkDehydrate s
    else if 0 < n then
      { s with items := markTailVisible (n - s.opts.alwaysVisibleTail) 0 s.items }
    else s
  if 0 < n then forceScrollToBottom s1 else s1

/-- `_onBulkLoad()`: skipped while a bulk pass runs, else schedule the outer
animation frame. -/
def onBulkLoad (s : VState) : VState :=
  if s.processingBulk then s
  else { s with frameCallbacks := s.frameCallbacks ++ [FrameCB.bulkLoadOuter] }

/-- `_onChatSwitch()`: clear the visible set, cancel scroll retries and the
dehydration debounce, reset the processing flag, reconnect the intersection
observer, and schedule the outer animation frame. -/
def onChatSwitch (s : VState) : VState :=
  { s with
    items := s.items.map fun m => { m with inVisibleSet := false }
    scrollRetryTimers := []
    dehydrateTimer := false
    processingBulk := false
    observerConnected := true
    frameCallbacks := s.frameCallbacks ++ [FrameCB.chatSwitchOuter] }

/-- The settle callback of the mutation observer's `_bulkTimer`
(classification of a burst of `added`/`removed` child mutations). -/
def settle (added removed : Nat) (s : VState) : VState :=
  if 0 < removed ∧ 0 < added then onChatSwitch s
  else if s.opts.bulkLoadThreshold ≤ added then onBulkLoad s
  else if 0 < added then trimOnNewMessage s
  else s

/-- `_scheduleDehydration()`: start the 200 ms debounce unless already pending. -/
def scheduleDehydration (s : VState) : VState :=
  if s.dehydrateTimer then s else { s with dehydrateTimer := true }

/-- Running one pending animation-frame callback.  The `doScroll` closure of
`_forceScrollToBottom` null-checks the container; the bulk-load inner frame
runs `_bulkDehydrate` then `_forceScrollToBottom`, the chat-switch inner
frame runs `_processExisting`. -/
def runFrame (cb : FrameCB) (s : VState) : VState :=
  match cb with
  | FrameCB.bulkLoadOuter =>
      { s with frameCallbacks := s.frameCallbacks ++ [FrameCB.bulkLoadInner] }
  | FrameCB.bulkLoadInner => forceScrollToBottom (bulkDehydrate s)
  | FrameCB.chatSwitchOuter =>
      { s with frameCallbacks := s.frameCallbacks ++ [FrameCB.chatSwitchInner] }
  | FrameCB.chatSwitchInner => processExisting s
  | FrameCB.scrollFrameOuter =>
      let s1 := { s with frameCallbacks := s.frameCallbacks ++ [FrameCB.scrollFrameInner] }
      if s1.hasContainer then { s1 with scrollTop := s1.scrollHeight } else s1
  | FrameCB.scrollFrameInner =>
      if s.hasContainer then { s with scrollTop := s.scrollHeight } else s

/-- `enable()`: return at once when already active; abort when `#chat` is
missing; else inject the hydrated override, connect both observers and the
scroll tracker, start the 1500 ms initial timer and mark the engine active. -/
def enable (s : VState) : VState :=
  if s.active then s
  else if ¬ s.hasContainer then s
  else
    { s with
      hydratedOverridePresent := true
      observerConnected := true
      mutationObserverConnected := true
      scrollHandlerAttached := true
      initialTimer := true
      active := true }

/-- `disable()`: disconnect both observers and the scroll handler, clear the
three timers, cancel the scroll retries, remove the override style, rehydrate
everything, clear the visible set and mark the engine inactive.  Pending
animation-frame callbacks and microtasks have no cancellation call in the
source and therefore survive. -/
def disable (s : VState) : VState :=
  let s1 : VState :=
    { s with
      observerConnected := false
      mutationObserverConnected := false
      scrollHandlerAttached := false
      dehydrateTimer := false
      bulkTimer := none
      initialTimer := false
      scrollRetryTimers := []
      hydratedOverridePresent := false }
  let s2 := rehydrateAllItems s1
  { s2 with
    items := s2.items.map fun m => { m with inVisibleSet := false }
    active := false }

/-- Invariant of claim C4 for one item: whenever the Dehydrated marker is
set, the cached `data-perf-height` attribute and the inline `height` and
`min-height` styles all equal the rendered height that was read at the moment
of dehydration (`offsetHeight`, which the embedding keeps constant, so the
height read in the bulk pass's phase 1 is this same value). -/
def heightInv (m : Mes) : Prop :=
  m.dehydrated = true →
    m.heightAttr = some m.offsetHeight ∧ m.styleHeight = some m.offsetHeight ∧
    m.styleMinHeight = some m.offsetHeight

instance (m : Mes) : Decidable (heightInv m) := by
  unfold heightInv
  infer_instance

/-! ### Concrete states used to instantiate the theorems -/

/-- A fully hydrated message with rendered height `h`. -/
def mkMes (h : Nat) : Mes :=
  { defaultMes with offsetHeight := h }

/-- A message that has been dehydrated at rendered height `h`. -/
def dehyMes (h : Nat) : Mes :=
  { dehydrated := true, heightAttr := some h, styleHeight := some h, styleMinHeight := some h,
    styleOverflow := some "hidden", styleContentVisibility := some "hidden", offsetHeight := h,
    isLastMes := false, editing := false, inVisibleSet := false }

/-- An enabled virtualizer on an empty container with the default options. -/
def baseState : VState :=
  { active := true, hasContainer := true, clientHeight := 600, windowInnerHeight := 800,
    scrollTop := 0, scrollHeight := 5000,
    opts := DEFAULT_OPTIONS,
    items := [],
    processingBulk := false, observerConnected := true, mutationObserverConnected := true,
    scrollHandlerAttached := true, hydratedOverridePresent := true,
    dehydrateTimer := false, bulkTimer := none, initialTimer := false,
    scrollRetryTimers := [], frameCallbacks := [], microtasks := [] }

/-- The spec's concrete scenario: 50 hydrated messages, viewport height 600 px,
default options. -/
def chat50 : VState :=
  { baseState with
    items := List.replicate 49 (mkMes 100) ++ [{ mkMes 100 with isLastMes := true }] }

/-- Three hydrated messages under small options
(`bufferSize 0`, `alwaysVisibleTail 1`, `bulkLoadThreshold 2`, viewport 150 px). -/
def chat3 : VState :=
  { baseState with
    clientHeight := 150
    opts := { bufferSize := 0, alwaysVisibleTail := 1, bulkLoadThreshold := 2 }
    items := [mkMes 10, mkMes 20, { mkMes 30 with isLastMes := true }] }

/-- Like `chat3` but the first message is under active edit. -/
def editChat : VState :=
  { chat3 with
    items := [{ mkMes 10 with editing := true }, mkMes 20, { mkMes 30 with isLastMes := true }] }

/-- Like `chat3` but the middle message is already dehydrated
(hydrated count `2 = maxHydrated + 1` for these options). -/
def trimChat : VState :=
  { chat3 with
    items := [mkMes 10, dehyMes 20, { mkMes 30 with isLastMes := true }] }

/-- Like `chat3` with a pending bulk-load inner animation frame. -/
def framePendingChat : VState :=
  { chat3 with frameCallbacks := [FrameCB.bulkLoadInner] }

/-- Like `chat3` while the bulk-processing flag is held. -/
def busyChat : VState :=
  { chat3 with processingBulk := true }

/-- Five hydrated messages (below the default `bulkLoadThreshold` of 15),
none in the visible set. -/
def smallChat : VState :=
  { baseState with
    items := List.replicate 4 (mkMes 10) ++ [{ mkMes 10 with isLastMes := true }] }

/-! ### Basic lemmas about the per-item operations -/

theorem dehydrateMes_dehydrated (m : Mes) : (dehydrateMes m).dehydrated = true := by
  unfold dehydrateMes
  split
  · assumption
  · rfl

theorem hydrateMes_dehydrated (m : Mes) : (hydrateMes m).dehydrated = false := by
  unfold hydrateMes
  split
  · rfl
  · simp_all

theorem dehydrateMes_of_dehydrated (m : Mes) (h : m.dehydrated = true) :
    dehydrateMes m = m := by
  unfold dehydrateMes
  simp [h]

/-! ### Characterization of the bulk-pass write phase -/

theorem bulkWrite_length (dEnd : Nat) :
    ∀ (l : List Mes) (j : Nat), (bulkWrite dEnd j l).length = l.length := by
  intro l
  induction l with
  | nil => intro j; rfl
  | cons m rest ih => intro j; simp [bulkWrite, ih]

theorem bulkWrite_getD (dEnd : Nat) :
    ∀ (l : List Mes) (j i : Nat), i < l.length →
      (bulkWrite dEnd j l).getD i defaultMes =
        (if j + i < dEnd then { dehydrateMes (l.getD i defaultMes) with inVisibleSet := false }
         else { l.getD i defaultMes with inVisibleSet := true }) := by
  intro l
  induction l with
  | nil => intro j i hi; simp at hi
  | cons m rest ih =>
    intro j i hi
    cases i with
    | zero => simp [bulkWrite]
    | succ i' =>
      have hi' : i' < rest.length := by simpa using hi
      have hrw : j + 1 + i' = j + (i' + 1) := by omega
      simp only [bulkWrite, List.getD_cons_succ]
      rw [ih (j + 1) i' hi', hrw]

theorem bulkWrite_dehydratedCount (dEnd : Nat) :
    ∀ (l : List Mes) (j : Nat), (∀ m ∈ l, m.dehydrated = false) →
      ((bulkWrite dEnd j l).filter fun m => m.dehydrated).length = min (dEnd - j) l.length := by
  intro l
  induction l with
  | nil => intro j _; simp [bulkWrite]
  | cons m rest ih =>
    intro j hall
    have hm : m.dehydrated = false := hall m (List.mem_cons_self m rest)
    have hrest : ∀ m' ∈ rest, m'.dehydrated = false :=
      fun m' hm' => hall m' (List.mem_cons_of_mem m hm')
    by_cases hj : j < dEnd
    · simp only [bulkWrite, if_pos hj, List.filter_cons]
      rw [if_pos (dehydrateMes_dehydrated m)]
      simp only [List.length_cons]
      rw [ih (j + 1) hrest]
      omega
    · simp only [bulkWrite, if_neg hj, List.filter_cons]
      rw [if_neg (by simp [hm]), ih (j + 1) hrest]
      simp only [List.length_cons]
      omega

theorem filter_dehydrated_eq_zero (l : List Mes) (h : ∀ m ∈ l, m.dehydrated = false) :
    (l.filter fun m => m.dehydrated).length = 0 := by
  induction l with
  | nil => rfl
  | cons m rest ih =>
    have hm : m.dehydrated = false := h m (List.mem_cons_self m rest)
    simp only [List.filter_cons, hm]
    exact ih fun m' hm' => h m' (List.mem_cons_of_mem m hm')

theorem getD_mem {l : List Mes} {i : Nat} (hi : i < l.length) :
    l.getD i defaultMes ∈ l := by
  rw [List.getD_eq_getElem l defaultMes hi]
  exact List.getElem_mem hi

theorem bulkDehydrate_eq (s : VState) (hproc : s.processingBulk = false) :
    bulkDehydrate s =
      if s.items.length ≤ s.opts.alwaysVisibleTail then s
      else if s.items.length - keepCount s = 0 then s
      else { s with items := bulkWrite (s.items.length - keepCount s) 0 s.items } := by
  unfold bulkDehydrate
  rw [if_neg (by simp [hproc])]

/-- **C1.** For every item count `N ≥ bulkLoadThreshold` with all `N` items
initially Hydrated, one completed bulk dehydration pass leaves exactly
`max(0, N − keepCount)` items Dehydrated, where
`keepCount = max(ceil(viewportHeightPx/150) + 2*bufferSize, alwaysVisibleTail)`,
and the Dehydrated items are exactly the first `N − keepCount` items in
document order (the last `keepCount` items stay Hydrated). -/
theorem C1_bulk_pass_window (s : VState)
    (hproc : s.processingBulk = false)
    (hall : ∀ m ∈ s.items, m.dehydrated = false)
    (_hN : s.opts.bulkLoadThreshold ≤ s.items.length)
    (hch : 0 < s.clientHeight) :
    ((bulkDehydrate s).items.filter fun m => m.dehydrated).length =
      s.items.length -
        max ((s.clientHeight + 149) / 150 + s.opts.bufferSize * 2) s.opts.alwaysVisibleTail ∧
    ∀ i, i < s.items.length →
      (((bulkDehydrate s).items.getD i defaultMes).dehydrated = true ↔
        i < s.items.length -
          max ((s.clientHeight + 149) / 150 + s.opts.bufferSize * 2) s.opts.alwaysVisibleTail) := by
  have hKeq : max ((s.clientHeight + 149) / 150 + s.opts.bufferSize * 2) s.opts.alwaysVisibleTail
      = keepCount s := by
    unfold keepCount visibleEstimate containerH
    rw [if_neg (by omega)]
  rw [hKeq, bulkDehydrate_eq s hproc]
  have htail : s.opts.alwaysVisibleTail ≤ keepCount s := le_max_right _ _
  by_cases h1 : s.items.length ≤ s.opts.alwaysVisibleTail
  · rw [if_pos h1]
    have hz : s.items.length - keepCount s = 0 := by omega
    rw [hz]
    refine ⟨filter_dehydrated_eq_zero s.items hall, ?_⟩
    intro i hi
    rw [hall _ (getD_mem hi)]
    simp
  · rw [if_neg h1]
    by_cases h2 : s.items.length - keepCount s = 0
    · rw [if_pos h2, h2]
      refine ⟨filter_dehydrated_eq_zero s.items hall, ?_⟩
      intro i hi
      rw [hall _ (getD_mem hi)]
      simp
    · rw [if_neg h2]
      dsimp only
      constructor
      · rw [bulkWrite_dehydratedCount (s.items.length - keepCount s) s.items 0 hall]
        omega
      · intro i hi
        rw [bulkWrite_getD _ s.items 0 i hi]
        by_cases h3 : 0 + i < s.items.length - keepCount s
        · rw [if_pos h3]
          simp only [dehydrateMes_dehydrated]
          constructor
          · intro _; omega
          · intro _; trivial
        · rw [if_neg h3]
          have hh : (s.items.getD i defaultMes).dehydrated = false := hall _ (getD_mem hi)
          constructor
          · intro hcontra
            rw [show ({ s.items.getD i defaultMes with inVisibleSet := true } : Mes).dehydrated
                  = (s.items.getD i defaultMes).dehydrated from rfl, hh] at hcontra
            exact absurd hcontra (by simp)
          · intro hlt; omega

/-- Witness for C1 at the spec's concrete scenario (`N = 50`, viewport 600 px,
default options): exactly the first 42 items end up Dehydrated. -/
theorem C1_bulk_pass_window_witness :
    (chat50.processingBulk = false ∧ (∀ m ∈ chat50.items, m.dehydrated = false) ∧
     chat50.opts.bulkLoadThreshold ≤ chat50.items.length ∧ 0 < chat50.clientHeight) ∧
    (((bulkDehydrate chat50).items.filter fun m => m.dehydrated).length =
      chat50.items.length -
        max ((chat50.clientHeight + 149) / 150 + chat50.opts.bufferSize * 2)
          chat50.opts.alwaysVisibleTail ∧
    ∀ i, i < chat50.items.length →
      (((bulkDehydrate chat50).items.getD i defaultMes).dehydrated = true ↔
        i < chat50.items.length -
          max ((chat50.clientHeight + 149) / 150 + chat50.opts.bufferSize * 2)
            chat50.opts.alwaysVisibleTail)) :=
  ⟨⟨rfl, by decide, by decide, by decide⟩,
   C1_bulk_pass_window chat50 rfl (by decide) (by decide) (by decide)⟩

/-- **C8.** While a bulk dehydration pass is in progress (the processing flag
is set), any bulk pass, off-screen dehydration sweep, or budget trim that is
invoked returns immediately without modifying any item marker, any inline
style, or the VisibleSet — the invocation is dropped, not queued (the whole
state is returned unchanged). -/
theorem C8_processing_drops_invocations (s : VState) (h : s.processingBulk = true) :
    bulkDehydrate s = s ∧ dehydrateOffscreen s = s ∧ trimOnNewMessage s = s := by
  refine ⟨?_, ?_, ?_⟩
  · unfold bulkDehydrate
    rw [if_pos h]
  · unfold dehydrateOffscreen
    rw [if_pos (Or.inr h)]
  · unfold trimOnNewMessage
    rw [if_pos (Or.inr h)]

/-- Witness for C8: with the processing flag held, all three operations leave
the concrete state `busyChat` untouched. -/
theorem C8_processing_drops_invocations_witness :
    busyChat.processingBulk = true ∧
    (bulkDehydrate busyChat = busyChat ∧ dehydrateOffscreen busyChat = busyChat ∧
     trimOnNewMessage busyChat = busyChat) :=
  ⟨rfl, C8_processing_drops_invocations busyChat rfl⟩

/-- **C10.** Calling `enable()` when the engine is already active returns
immediately and changes nothing: every field of the virtualizer keeps its
value — `enable()` is idempotent on an active engine. -/
theorem C10_enable_idempotent (s : VState) (h : s.active = true) : enable s = s := by
  unfold enable
  rw [if_pos h]

/-- Witness for C10 at the concrete active state `chat50`. -/
theorem C10_enable_idempotent_witness :
    chat50.active = true ∧ enable chat50 = chat50 :=
  ⟨rfl, C10_enable_idempotent chat50 rfl⟩

/-- **C3.** For every prior state (with the container present), after
`disable()` returns, no item in the container carries the Dehydrated marker,
regardless of how many items were Dehydrated before the call. -/
theorem C3_disable_clears_markers (s : VState) (h : s.hasContainer = true) :
    ∀ m ∈ (disable s).items, m.dehydrated = false := by
  intro m hm
  unfold disable rehydrateAllItems at hm
  dsimp only at hm
  rw [if_neg (by simp [h])] at hm
  dsimp only at hm
  rw [List.mem_map] at hm
  obtain ⟨x, hx, rfl⟩ := hm
  rw [List.mem_map] at hx
  obtain ⟨y, _, rfl⟩ := hx
  exact hydrateMes_dehydrated y

/-- Witness for C3 at `trimChat`, whose middle item is Dehydrated before the
call. -/
theorem C3_disable_clears_markers_witness :
    trimChat.hasContainer = true ∧ ∀ m ∈ (disable trimChat).items, m.dehydrated = false :=
  ⟨rfl, C3_disable_clears_markers trimChat rfl⟩

/-! ### Characterization of the off-screen sweep and the budget trimmer -/

theorem sweepItems_getD (tailStart : Nat) :
    ∀ (l : List Mes) (j i : Nat), i < l.length →
      (sweepItems tailStart j l).getD i defaultMes =
        (if (l.getD i defaultMes).inVisibleSet then l.getD i defaultMes
         else if tailStart ≤ j + i then l.getD i defaultMes
         else if (l.getD i defaultMes).isLastMes then l.getD i defaultMes
         else if (l.getD i defaultMes).editing then l.getD i defaultMes
         else dehydrateMes (l.getD i defaultMes)) := by
  intro l
  induction l with
  | nil => intro j i hi; simp at hi
  | cons m rest ih =>
    intro j i hi
    cases i with
    | zero => simp [sweepItems]
    | succ i' =>
      have hi' : i' < rest.length := by simpa using hi
      have hrw : j + 1 + i' = j + (i' + 1) := by omega
      simp only [sweepItems, List.getD_cons_succ]
      rw [ih (j + 1) i' hi', hrw]

theorem eligible_spec {m : Mes} (h : eligible m = true) :
    m.dehydrated = false ∧ m.isLastMes = false ∧ m.inVisibleSet = false ∧ m.editing = false := by
  unfold eligible at h
  simp only [Bool.and_eq_true, Bool.not_eq_true'] at h
  exact ⟨h.1.1.1, h.1.1.2, h.1.2, h.2⟩

theorem eligCount_cons (m : Mes) (l : List Mes) :
    eligCount (m :: l) = (if eligible m then 1 else 0) + eligCount l := by
  unfold eligCount
  rw [List.filter_cons]
  split
  · simp [Nat.add_comm]
  · simp

theorem hydratedCount_cons (m : Mes) (l : List Mes) :
    hydratedCount (m :: l) = (if m.dehydrated then 0 else 1) + hydratedCount l := by
  unfold hydratedCount
  rw [List.filter_cons]
  by_cases hm : m.dehydrated
  · simp [hm]
  · simp only [Bool.not_eq_true'] at hm
    simp [hm, Nat.add_comm]

theorem eligCount_le_hydratedCount (l : List Mes) : eligCount l ≤ hydratedCount l := by
  induction l with
  | nil => exact Nat.le_refl 0
  | cons m rest ih =>
    rw [eligCount_cons, hydratedCount_cons]
    have hm : (if eligible m then 1 else 0) ≤ (if m.dehydrated then 0 else 1) := by
      by_cases he : eligible m = true
      · rw [if_pos he, (eligible_spec he).1]
        exact Nat.le_refl 1
      · rw [if_neg he]
        exact Nat.zero_le _
    omega

theorem hydratedCount_le_length (l : List Mes) : hydratedCount l ≤ l.length := by
  unfold hydratedCount
  exact List.length_filter_le _ _

theorem eligBefore_zero (l : List Mes) : eligBefore l 0 = 0 := rfl

theorem eligBefore_cons_succ (m : Mes) (l : List Mes) (i : Nat) :
    eligBefore (m :: l) (i + 1) = (if eligible m then 1 else 0) + eligBefore l i := by
  unfold eligBefore
  rw [List.take_succ_cons, eligCount_cons]

theorem trimItems_nil (e : Nat) : trimItems e [] = [] := by
  cases e <;> rfl

theorem trimItems_getD :
    ∀ (l : List Mes) (e i : Nat), i < l.length →
      (trimItems e l).getD i defaultMes =
        (if eligible (l.getD i defaultMes) = true ∧ eligBefore l i < e
         then dehydrateMes (l.getD i defaultMes) else l.getD i defaultMes) := by
  intro l
  induction l with
  | nil => intro e i hi; simp at hi
  | cons m rest ih =>
    intro e i hi
    cases e with
    | zero =>
      rw [if_neg (by omega)]
      rfl
    | succ e' =>
      simp only [trimItems]
      cases i with
      | zero =>
        by_cases he : eligible m = true
        · rw [if_pos he]
          simp only [List.getD_cons_zero]
          rw [if_pos ⟨he, by rw [eligBefore_zero]; omega⟩]
        · rw [if_neg he]
          simp only [List.getD_cons_zero]
          rw [if_neg fun hcon => he hcon.1]
      | succ i' =>
        have hi' : i' < rest.length := by simpa using hi
        by_cases he : eligible m = true
        · rw [if_pos he]
          simp only [List.getD_cons_succ]
          rw [ih e' i' hi']
          have hiff : (eligible (rest.getD i' defaultMes) = true ∧ eligBefore rest i' < e') ↔
              (eligible (rest.getD i' defaultMes) = true ∧
               eligBefore (m :: rest) (i' + 1) < e' + 1) := by
            rw [eligBefore_cons_succ, if_pos he]
            constructor
            · rintro ⟨a, b⟩; exact ⟨a, by omega⟩
            · rintro ⟨a, b⟩; exact ⟨a, by omega⟩
          exact if_congr hiff rfl rfl
        · rw [if_neg he]
          simp only [List.getD_cons_succ]
          rw [ih (e' + 1) i' hi']
          have hiff : (eligible (rest.getD i' defaultMes) = true ∧ eligBefore rest i' < e' + 1) ↔
              (eligible (rest.getD i' defaultMes) = true ∧
               eligBefore (m :: rest) (i' + 1) < e' + 1) := by
            rw [eligBefore_cons_succ, if_neg he]
            constructor
            · rintro ⟨a, b⟩; exact ⟨a, by omega⟩
            · rintro ⟨a, b⟩; exact ⟨a, by omega⟩
          exact if_congr hiff rfl rfl

theorem trimItems_hydratedCount :
    ∀ (l : List Mes) (e : Nat),
      hydratedCount (trimItems e l) = hydratedCount l - min e (eligCount l) := by
  intro l
  induction l with
  | nil =>
    intro e
    rw [trimItems_nil]
    simp [hydratedCount, eligCount]
  | cons m rest ih =>
    intro e
    cases e with
    | zero => simp [trimItems]
    | succ e' =>
      have h1 := eligCount_le_hydratedCount rest
      simp only [trimItems]
      by_cases he : eligible m = true
      · have hd : m.dehydrated = false := (eligible_spec he).1
        rw [if_pos he, hydratedCount_cons, hydratedCount_cons, eligCount_cons, ih e',
          dehydrateMes_dehydrated m, hd, if_pos he]
        simp only [Bool.false_eq_true, if_true, if_false]
        omega
      · rw [if_neg he, hydratedCount_cons, hydratedCount_cons, eligCount_cons, ih (e' + 1),
          if_neg he]
        by_cases hd : m.dehydrated = true
        · rw [if_pos hd]
          omega
        · rw [if_neg hd]
          omega

theorem trimOnNewMessage_eq (s : VState) (hc : s.hasContainer = true)
    (hp : s.processingBulk = false)
    (hh : s.opts.alwaysVisibleTail + s.opts.bufferSize * 2 < hydratedCount s.items) :
    trimOnNewMessage s =
      { s with
        items := trimItems
          (hydratedCount s.items - (s.opts.alwaysVisibleTail + s.opts.bufferSize * 2))
          s.items } := by
  have hlen := hydratedCount_le_length s.items
  unfold trimOnNewMessage
  rw [if_neg (by simp [hc, hp])]
  dsimp only
  rw [if_neg (by omega), if_neg (by omega)]

theorem dehydrateOffscreen_eq (s : VState) (hc : s.hasContainer = true)
    (hp : s.processingBulk = false) :
    dehydrateOffscreen s =
      { s with items := sweepItems (s.items.length - s.opts.alwaysVisibleTail) 0 s.items } := by
  unfold dehydrateOffscreen
  rw [if_neg (by simp [hc, hp])]

theorem bool_not_true {b : Bool} (h : ¬ b = true) : b = false := by
  cases b
  · rfl
  · exact absurd rfl h

/-- Counterexample to **C2** as stated: in `editChat` the first item is under
active edit and Hydrated, yet a completed bulk dehydration pass leaves it
carrying the Dehydrated marker (the bulk pass never consults the edit state). -/
theorem C2_bulk_dehydrates_editing_item_cex :
    (editChat.items.getD 0 defaultMes).editing = true ∧
    (editChat.items.getD 0 defaultMes).dehydrated = false ∧
    ((bulkDehydrate editChat).items.getD 0 defaultMes).editing = true ∧
    ((bulkDehydrate editChat).items.getD 0 defaultMes).dehydrated = true := by
  decide

/-- **C2 (amended).** The off-screen sweep and the budget trim never newly
dehydrate an item that is in VisibleSet, is the last item, or is under active
edit; the sweep additionally never newly dehydrates an item among the last
`alwaysVisibleTail` items.  The bulk pass never newly dehydrates an item among
the last `alwaysVisibleTail` items and every item it newly dehydrates is
outside the resulting VisibleSet — but the bulk pass does not protect items
under active edit, and the positional tail protection of the trim only covers
the `last_mes` item itself. -/
theorem C2_protected_items_amended (s : VState) (i : Nat) (hi : i < s.items.length)
    (hpre : (s.items.getD i defaultMes).dehydrated = false) :
    (((dehydrateOffscreen s).items.getD i defaultMes).dehydrated = true →
      (s.items.getD i defaultMes).inVisibleSet = false ∧
      (s.items.getD i defaultMes).isLastMes = false ∧
      (s.items.getD i defaultMes).editing = false ∧
      i < s.items.length - s.opts.alwaysVisibleTail) ∧
    (((trimOnNewMessage s).items.getD i defaultMes).dehydrated = true →
      (s.items.getD i defaultMes).inVisibleSet = false ∧
      (s.items.getD i defaultMes).isLastMes = false ∧
      (s.items.getD i defaultMes).editing = false) ∧
    (((bulkDehydrate s).items.getD i defaultMes).dehydrated = true →
      i < s.items.length - s.opts.alwaysVisibleTail ∧
      ((bulkDehydrate s).items.getD i defaultMes).inVisibleSet = false) := by
  refine ⟨?_, ?_, ?_⟩
  · intro hpost
    by_cases hg : ¬s.hasContainer = true ∨ s.processingBulk = true
    · exfalso
      unfold dehydrateOffscreen at hpost
      rw [if_pos hg, hpre] at hpost
      simp at hpost
    · have hc : s.hasContainer = true := by
        by_contra hcon
        exact hg (Or.inl hcon)
      have hp : s.processingBulk = false := by
        by_contra hcon
        exact hg (Or.inr (by revert hcon; cases s.processingBulk <;> simp))
      rw [dehydrateOffscreen_eq s hc hp] at hpost
      dsimp only at hpost
      rw [sweepItems_getD _ s.items 0 i hi] at hpost
      by_cases h1 : (s.items.getD i defaultMes).inVisibleSet = true
      · rw [if_pos h1, hpre] at hpost
        simp at hpost
      · rw [if_neg h1] at hpost
        by_cases h2 : s.items.length - s.opts.alwaysVisibleTail ≤ 0 + i
        · rw [if_pos h2, hpre] at hpost
          simp at hpost
        · rw [if_neg h2] at hpost
          by_cases h3 : (s.items.getD i defaultMes).isLastMes = true
          · rw [if_pos h3, hpre] at hpost
            simp at hpost
          · rw [if_neg h3] at hpost
            by_cases h4 : (s.items.getD i defaultMes).editing = true
            · rw [if_pos h4, hpre] at hpost
              simp at hpost
            · exact ⟨bool_not_true h1, bool_not_true h3, bool_not_true h4, by omega⟩
  · intro hpost
    by_cases hg : ¬s.hasContainer = true ∨ s.processingBulk = true
    · exfalso
      unfold trimOnNewMessage at hpost
      rw [if_pos hg, hpre] at hpost
      simp at hpost
    · have hc : s.hasContainer = true := by
        by_contra hcon
        exact hg (Or.inl hcon)
      have hp : s.processingBulk = false := by
        by_contra hcon
        exact hg (Or.inr (by revert hcon; cases s.processingBulk <;> simp))
      by_cases hh : s.opts.alwaysVisibleTail + s.opts.bufferSize * 2 < hydratedCount s.items
      · rw [trimOnNewMessage_eq s hc hp hh] at hpost
        dsimp only at hpost
        rw [trimItems_getD s.items _ i hi] at hpost
        by_cases hcnd : eligible (s.items.getD i defaultMes) = true ∧
            eligBefore s.items i <
              hydratedCount s.items - (s.opts.alwaysVisibleTail + s.opts.bufferSize * 2)
        · obtain ⟨hel, -⟩ := hcnd
          obtain ⟨-, hlast, hvis, hedit⟩ := eligible_spec hel
          exact ⟨hvis, hlast, hedit⟩
        · rw [if_neg hcnd, hpre] at hpost
          simp at hpost
      · have hid : trimOnNewMessage s = s := by
          unfold trimOnNewMessage
          rw [if_neg (by simp [hc, hp])]
          dsimp only
          by_cases ht : s.items.length ≤ s.opts.alwaysVisibleTail + s.opts.bufferSize * 2
          · rw [if_pos ht]
          · rw [if_neg ht, if_pos (by omega)]
        rw [hid, hpre] at hpost
        simp at hpost
  · intro hpost
    by_cases hp : s.processingBulk = true
    · exfalso
      unfold bulkDehydrate at hpost
      rw [if_pos hp, hpre] at hpost
      simp at hpost
    · have hp' : s.processingBulk = false := bool_not_true hp
      rw [bulkDehydrate_eq s hp'] at hpost ⊢
      by_cases h1 : s.items.length ≤ s.opts.alwaysVisibleTail
      · rw [if_pos h1] at hpost
        rw [hpre] at hpost
        simp at hpost
      · rw [if_neg h1] at hpost ⊢
        by_cases h2 : s.items.length - keepCount s = 0
        · rw [if_pos h2] at hpost
          rw [hpre] at hpost
          simp at hpost
        · rw [if_neg h2] at hpost ⊢
          dsimp only at hpost ⊢
          rw [bulkWrite_getD _ s.items 0 i hi] at hpost ⊢
          by_cases h3 : 0 + i < s.items.length - keepCount s
          · rw [if_pos h3] at hpost ⊢
            have htail : s.opts.alwaysVisibleTail ≤ keepCount s := le_max_right _ _
            exact ⟨by omega, rfl⟩
          · rw [if_neg h3] at hpost
            rw [show ({ s.items.getD i defaultMes with inVisibleSet := true } : Mes).dehydrated
                  = (s.items.getD i defaultMes).dehydrated from rfl, hpre] at hpost
            simp at hpost

/-- Witness for the amended C2 at `chat3`, index 0, where all three operations
do newly dehydrate the item. -/
theorem C2_protected_items_amended_witness :
    (0 < chat3.items.length ∧ (chat3.items.getD 0 defaultMes).dehydrated = false) ∧
    ((((dehydrateOffscreen chat3).items.getD 0 defaultMes).dehydrated = true →
      (chat3.items.getD 0 defaultMes).inVisibleSet = false ∧
      (chat3.items.getD 0 defaultMes).isLastMes = false ∧
      (chat3.items.getD 0 defaultMes).editing = false ∧
      0 < chat3.items.length - chat3.opts.alwaysVisibleTail) ∧
    (((trimOnNewMessage chat3).items.getD 0 defaultMes).dehydrated = true →
      (chat3.items.getD 0 defaultMes).inVisibleSet = false ∧
      (chat3.items.getD 0 defaultMes).isLastMes = false ∧
      (chat3.items.getD 0 defaultMes).editing = false) ∧
    (((bulkDehydrate chat3).items.getD 0 defaultMes).dehydrated = true →
      0 < chat3.items.length - chat3.opts.alwaysVisibleTail ∧
      ((bulkDehydrate chat3).items.getD 0 defaultMes).inVisibleSet = false)) :=
  ⟨⟨by decide, by decide⟩, C2_protected_items_amended chat3 0 (by decide) (by decide)⟩

/-- **C5.** After a classified incremental append (`0 < added < bulkLoadThreshold`),
the Budget Trimmer dehydrates the oldest eligible non-Dehydrated items from
the front — skipping the last item, VisibleSet members, and items under
active edit — until the hydrated count is at most
`maxHydrated = alwaysVisibleTail + 2*bufferSize` or no eligible candidate
remains; in particular, with hydrated count `maxHydrated + 1` and at least one
eligible candidate, exactly one front item is dehydrated and the hydrated
count returns to `maxHydrated`. -/
theorem C5_budget_trimmer (s : VState) (added : Nat)
    (hcont : s.hasContainer = true) (hp : s.processingBulk = false)
    (ha0 : 0 < added) (ha1 : added < s.opts.bulkLoadThreshold)
    (hh : s.opts.alwaysVisibleTail + s.opts.bufferSize * 2 < hydratedCount s.items) :
    settle added 0 s = trimOnNewMessage s ∧
    hydratedCount (trimOnNewMessage s).items =
      max (s.opts.alwaysVisibleTail + s.opts.bufferSize * 2)
        (hydratedCount s.items - eligCount s.items) ∧
    (∀ i, i < s.items.length →
      (((trimOnNewMessage s).items.getD i defaultMes).dehydrated = true ↔
        (s.items.getD i defaultMes).dehydrated = true ∨
        (eligible (s.items.getD i defaultMes) = true ∧
         eligBefore s.items i <
           hydratedCount s.items - (s.opts.alwaysVisibleTail + s.opts.bufferSize * 2)))) ∧
    (hydratedCount s.items = s.opts.alwaysVisibleTail + s.opts.bufferSize * 2 + 1 →
      1 ≤ eligCount s.items →
      hydratedCount (trimOnNewMessage s).items =
        s.opts.alwaysVisibleTail + s.opts.bufferSize * 2) := by
  have heq := trimOnNewMessage_eq s hcont hp hh
  have h1 := eligCount_le_hydratedCount s.items
  refine ⟨?_, ?_, ?_, ?_⟩
  · unfold settle
    rw [if_neg (by omega), if_neg (by omega), if_pos ha0]
  · rw [heq]
    dsimp only
    rw [trimItems_hydratedCount]
    omega
  · intro i hi
    rw [heq]
    dsimp only
    rw [trimItems_getD s.items _ i hi]
    by_cases hcnd : eligible (s.items.getD i defaultMes) = true ∧
        eligBefore s.items i <
          hydratedCount s.items - (s.opts.alwaysVisibleTail + s.opts.bufferSize * 2)
    · rw [if_pos hcnd]
      exact iff_of_true (dehydrateMes_dehydrated _) (Or.inr hcnd)
    · rw [if_neg hcnd]
      constructor
      · intro h
        exact Or.inl h
      · rintro (h | h)
        · exact h
        · exact absurd h hcnd
  · intro h2 h3
    rw [heq]
    dsimp only
    rw [trimItems_hydratedCount]
    omega

/-- Witness for C5 at `trimChat` (hydrated count `2 = maxHydrated + 1`, one
eligible candidate) with an append of one item. -/
theorem C5_budget_trimmer_witness :
    (trimChat.hasContainer = true ∧ trimChat.processingBulk = false ∧
     0 < 1 ∧ 1 < trimChat.opts.bulkLoadThreshold ∧
     trimChat.opts.alwaysVisibleTail + trimChat.opts.bufferSize * 2 <
       hydratedCount trimChat.items) ∧
    (settle 1 0 trimChat = trimOnNewMessage trimChat ∧
    hydratedCount (trimOnNewMessage trimChat).items =
      max (trimChat.opts.alwaysVisibleTail + trimChat.opts.bufferSize * 2)
        (hydratedCount trimChat.items - eligCount trimChat.items) ∧
    (∀ i, i < trimChat.items.length →
      (((trimOnNewMessage trimChat).items.getD i defaultMes).dehydrated = true ↔
        (trimChat.items.getD i defaultMes).dehydrated = true ∨
        (eligible (trimChat.items.getD i defaultMes) = true ∧
         eligBefore trimChat.items i <
           hydratedCount trimChat.items -
             (trimChat.opts.alwaysVisibleTail + trimChat.opts.bufferSize * 2)))) ∧
    (hydratedCount trimChat.items =
        trimChat.opts.alwaysVisibleTail + trimChat.opts.bufferSize * 2 + 1 →
      1 ≤ eligCount trimChat.items →
      hydratedCount (trimOnNewMessage trimChat).items =
        trimChat.opts.alwaysVisibleTail + trimChat.opts.bufferSize * 2)) :=
  ⟨⟨rfl, rfl, by decide, by decide, by decide⟩,
   C5_budget_trimmer trimChat 1 rfl rfl (by decide) (by decide) (by decide)⟩

/-! ### The cached-height invariant (C4) -/

theorem heightInv_dehydrateMes_of_hydrated (m : Mes) (h : m.dehydrated = false) :
    heightInv (dehydrateMes m) := by
  unfold heightInv dehydrateMes
  rw [h]
  simp

theorem heightInv_dehydrateMes (m : Mes) (h : heightInv m) : heightInv (dehydrateMes m) := by
  by_cases hd : m.dehydrated = true
  · rw [dehydrateMes_of_dehydrated m hd]
    exact h
  · exact heightInv_dehydrateMes_of_hydrated m (bool_not_true hd)

theorem heightInv_setVis (m : Mes) (b : Bool) (h : heightInv m) :
    heightInv { m with inVisibleSet := b } := h

theorem heightInv_bulkWrite (dEnd : Nat) :
    ∀ (l : List Mes) (j : Nat), (∀ m ∈ l, heightInv m) →
      ∀ m ∈ bulkWrite dEnd j l, heightInv m := by
  intro l
  induction l with
  | nil => intro j _ m hm; simp [bulkWrite] at hm
  | cons a rest ih =>
    intro j hall m hm
    have ha : heightInv a := hall a (List.mem_cons_self a rest)
    have hrest : ∀ m' ∈ rest, heightInv m' := fun m' h' => hall m' (List.mem_cons_of_mem a h')
    simp only [bulkWrite, List.mem_cons] at hm
    rcases hm with hm | hm
    · subst hm
      split
      · exact heightInv_setVis _ _ (heightInv_dehydrateMes a ha)
      · exact heightInv_setVis _ _ ha
    · exact ih (j + 1) hrest m hm

theorem heightInv_sweepItems (tailStart : Nat) :
    ∀ (l : List Mes) (j : Nat), (∀ m ∈ l, heightInv m) →
      ∀ m ∈ sweepItems tailStart j l, heightInv m := by
  intro l
  induction l with
  | nil => intro j _ m hm; simp [sweepItems] at hm
  | cons a rest ih =>
    intro j hall m hm
    have ha : heightInv a := hall a (List.mem_cons_self a rest)
    have hrest : ∀ m' ∈ rest, heightInv m' := fun m' h' => hall m' (List.mem_cons_of_mem a h')
    simp only [sweepItems, List.mem_cons] at hm
    rcases hm with hm | hm
    · subst hm
      repeat' split
      all_goals first
        | exact ha
        | exact heightInv_dehydrateMes a ha
    · exact ih (j + 1) hrest m hm

theorem heightInv_trimItems :
    ∀ (l : List Mes) (e : Nat), (∀ m ∈ l, heightInv m) →
      ∀ m ∈ trimItems e l, heightInv m := by
  intro l
  induction l with
  | nil =>
    intro e _ m hm
    rw [trimItems_nil] at hm
    simp at hm
  | cons a rest ih =>
    intro e hall m hm
    have ha : heightInv a := hall a (List.mem_cons_self a rest)
    have hrest : ∀ m' ∈ rest, heightInv m' := fun m' h' => hall m' (List.mem_cons_of_mem a h')
    cases e with
    | zero => exact hall m hm
    | succ e' =>
      simp only [trimItems] at hm
      by_cases he : eligible a = true
      · rw [if_pos he] at hm
        rcases List.mem_cons.mp hm with hm | hm
        · subst hm
          exact heightInv_dehydrateMes a ha
        · exact ih e' hrest m hm
      · rw [if_neg he] at hm
        rcases List.mem_cons.mp hm with hm | hm
        · subst hm
          exact ha
        · exact ih (e' + 1) hrest m hm

/-- **C4.** Every Dehydrated item carries a cached height value equal to the
rendered height that was read at the moment of its dehydration, and its
inline box height (height and min-height) equals exactly that cached value;
the invariant is established by the per-item dehydrate on a Hydrated item and
preserved by the per-item dehydrate, the two-phase bulk pass, the off-screen
sweep and the budget trim. -/
theorem C4_cached_height_invariant :
    (∀ m : Mes, m.dehydrated = false → heightInv (dehydrateMes m)) ∧
    (∀ m : Mes, heightInv m → heightInv (dehydrateMes m)) ∧
    (∀ s : VState, (∀ m ∈ s.items, heightInv m) →
      ∀ m ∈ (bulkDehydrate s).items, heightInv m) ∧
    (∀ s : VState, (∀ m ∈ s.items, heightInv m) →
      ∀ m ∈ (dehydrateOffscreen s).items, heightInv m) ∧
    (∀ s : VState, (∀ m ∈ s.items, heightInv m) →
      ∀ m ∈ (trimOnNewMessage s).items, heightInv m) := by
  refine ⟨heightInv_dehydrateMes_of_hydrated, heightInv_dehydrateMes, ?_, ?_, ?_⟩
  · intro s hall m hm
    by_cases hp : s.processingBulk = true
    · unfold bulkDehydrate at hm
      rw [if_pos hp] at hm
      exact hall m hm
    · rw [bulkDehydrate_eq s (bool_not_true hp)] at hm
      by_cases h1 : s.items.length ≤ s.opts.alwaysVisibleTail
      · rw [if_pos h1] at hm
        exact hall m hm
      · rw [if_neg h1] at hm
        by_cases h2 : s.items.length - keepCount s = 0
        · rw [if_pos h2] at hm
          exact hall m hm
        · rw [if_neg h2] at hm
          dsimp only at hm
          exact heightInv_bulkWrite _ s.items 0 hall m hm
  · intro s hall m hm
    by_cases hg : ¬s.hasContainer = true ∨ s.processingBulk = true
    · unfold dehydrateOffscreen at hm
      rw [if_pos hg] at hm
      exact hall m hm
    · have hc : s.hasContainer = true := by
        by_contra hcon
        exact hg (Or.inl hcon)
      have hp : s.processingBulk = false := by
        by_contra hcon
        exact hg (Or.inr (by revert hcon; cases s.processingBulk <;> simp))
      rw [dehydrateOffscreen_eq s hc hp] at hm
      dsimp only at hm
      exact heightInv_sweepItems _ s.items 0 hall m hm
  · intro s hall m hm
    by_cases hg : ¬s.hasContainer = true ∨ s.processingBulk = true
    · unfold trimOnNewMessage at hm
      rw [if_pos hg] at hm
      exact hall m hm
    · unfold trimOnNewMessage at hm
      rw [if_neg hg] at hm
      dsimp only at hm
      by_cases ht : s.items.length ≤ s.opts.alwaysVisibleTail + s.opts.bufferSize * 2
      · rw [if_pos ht] at hm
        exact hall m hm
      · rw [if_neg ht] at hm
        by_cases hc2 : hydratedCount s.items ≤ s.opts.alwaysVisibleTail + s.opts.bufferSize * 2
        · rw [if_pos hc2] at hm
          exact hall m hm
        · rw [if_neg hc2] at hm
          exact heightInv_trimItems s.items _ hall m hm

/-- Witness for C4 on concrete items and states. -/
theorem C4_cached_height_invariant_witness :
    ((mkMes 7).dehydrated = false ∧ heightInv (dehydrateMes (mkMes 7))) ∧
    (heightInv (dehyMes 20) ∧ heightInv (dehydrateMes (dehyMes 20))) ∧
    ((∀ m ∈ chat3.items, heightInv m) ∧ ∀ m ∈ (bulkDehydrate chat3).items, heightInv m) ∧
    ((∀ m ∈ chat3.items, heightInv m) ∧ ∀ m ∈ (dehydrateOffscreen chat3).items, heightInv m) ∧
    ((∀ m ∈ trimChat.items, heightInv m) ∧ ∀ m ∈ (trimOnNewMessage trimChat).items, heightInv m) :=
  ⟨⟨rfl, C4_cached_height_invariant.1 (mkMes 7) rfl⟩,
   ⟨by decide, C4_cached_height_invariant.2.1 (dehyMes 20) (by decide)⟩,
   ⟨by decide, C4_cached_height_invariant.2.2.1 chat3 (by decide)⟩,
   ⟨by decide, C4_cached_height_invariant.2.2.2.1 chat3 (by decide)⟩,
   ⟨by decide, C4_cached_height_invariant.2.2.2.2 trimChat (by decide)⟩⟩

/-- Counterexample to **C6** as stated: for an item that is already
Dehydrated, `hydrate(dehydrate(item))` removes the marker, the cached height
and all inline overrides instead of restoring the item's previous
sizing/visibility state — the round trip is not the identity on every item. -/
theorem C6_round_trip_cex :
    hydrateMes (dehydrateMes (dehyMes 40)) ≠ dehyMes 40 := by
  decide

/-- **C6 (amended).** For every Hydrated item carrying no cached-height
attribute and no inline height/min-height/overflow/content-visibility
overrides, `hydrate(dehydrate(item))` is the identity; in general `hydrate`
clears the marker, the attribute and the overrides to empty rather than
restoring whatever values they held before. -/
theorem C6_round_trip_amended (m : Mes) (h1 : m.dehydrated = false)
    (h2 : m.heightAttr = none) (h3 : m.styleHeight = none) (h4 : m.styleMinHeight = none)
    (h5 : m.styleOverflow = none) (h6 : m.styleContentVisibility = none) :
    hydrateMes (dehydrateMes m) = m := by
  cases m with
  | mk d ha sh smh so scv oh lm ed vis =>
    simp only at h1 h2 h3 h4 h5 h6
    subst h1 h2 h3 h4 h5 h6
    rfl

/-- Witness for the amended C6 at the clean hydrated item `mkMes 7`. -/
theorem C6_round_trip_amended_witness :
    ((mkMes 7).dehydrated = false ∧ (mkMes 7).heightAttr = none ∧
     (mkMes 7).styleHeight = none ∧ (mkMes 7).styleMinHeight = none ∧
     (mkMes 7).styleOverflow = none ∧ (mkMes 7).styleContentVisibility = none) ∧
    hydrateMes (dehydrateMes (mkMes 7)) = mkMes 7 :=
  ⟨⟨rfl, rfl, rfl, rfl, rfl, rfl⟩, C6_round_trip_amended (mkMes 7) rfl rfl rfl rfl rfl rfl⟩

/-- Counterexample to **C7** as stated: `framePendingChat` has a pending
bulk-load animation frame; `disable()` leaves it scheduled, and when the
frame fires after `disable()` has returned it still mutates the items (it
runs the bulk dehydration on the torn-down container). -/
theorem C7_frame_survives_disable_cex :
    (disable framePendingChat).frameCallbacks = [FrameCB.bulkLoadInner] ∧
    (runFrame FrameCB.bulkLoadInner (disable framePendingChat)).items ≠
      (disable framePendingChat).items := by
  decide

/-- **C7 (amended).** `disable()` synchronously cancels every outstanding
timer — the debounced dehydration sweep, the bulk settle timer, the initial
delay timer, and the whole scroll-retry chain — but pending animation-frame
callbacks and microtasks have no cancellation call and survive `disable()`
unchanged. -/
theorem C7_disable_cancellation_amended (s : VState) :
    (disable s).dehydrateTimer = false ∧ (disable s).bulkTimer = none ∧
    (disable s).initialTimer = false ∧ (disable s).scrollRetryTimers = [] ∧
    (disable s).frameCallbacks = s.frameCallbacks ∧
    (disable s).microtasks = s.microtasks := by
  unfold disable rehydrateAllItems
  dsimp only
  split <;> exact ⟨rfl, rfl, rfl, rfl, rfl, rfl⟩

/-! ### Small-chat activation (C9) -/

theorem forceScrollToBottom_items (s : VState) :
    (forceScrollToBottom s).items = s.items := by
  unfold forceScrollToBottom
  split <;> rfl

theorem markTailVisible_getD (tailStart : Nat) :
    ∀ (l : List Mes) (j i : Nat), i < l.length →
      (markTailVisible tailStart j l).getD i defaultMes =
        (if tailStart ≤ j + i then { l.getD i defaultMes with inVisibleSet := true }
         else l.getD i defaultMes) := by
  intro l
  induction l with
  | nil => intro j i hi; simp at hi
  | cons m rest ih =>
    intro j i hi
    cases i with
    | zero => simp [markTailVisible]
    | succ i' =>
      have hi' : i' < rest.length := by simpa using hi
      have hrw : j + 1 + i' = j + (i' + 1) := by omega
      simp only [markTailVisible, List.getD_cons_succ]
      rw [ih (j + 1) i' hi', hrw]

theorem markTailVisible_dehydrated (tailStart : Nat) :
    ∀ (l : List Mes) (j : Nat), (∀ m ∈ l, m.dehydrated = false) →
      ∀ m ∈ markTailVisible tailStart j l, m.dehydrated = false := by
  intro l
  induction l with
  | nil => intro j _ m hm; simp [markTailVisible] at hm
  | cons a rest ih =>
    intro j hall m hm
    have ha : a.dehydrated = false := hall a (List.mem_cons_self a rest)
    have hrest : ∀ m' ∈ rest, m'.dehydrated = false :=
      fun m' h' => hall m' (List.mem_cons_of_mem a h')
    simp only [markTailVisible, List.mem_cons] at hm
    rcases hm with hm | hm
    · subst hm
      split
      · exact ha
      · exact ha
    · exact ih (j + 1) hrest m hm

theorem processExisting_small_eq (s : VState) (h0 : 0 < s.items.length)
    (hN : s.items.length < s.opts.bulkLoadThreshold) :
    processExisting s =
      forceScrollToBottom
        { s with
          items := markTailVisible (s.items.length - s.opts.alwaysVisibleTail) 0 s.items } := by
  unfold processExisting
  dsimp only
  rw [if_neg (show ¬ s.opts.bulkLoadThreshold ≤ s.items.length by omega), if_pos h0, if_pos h0]

/-- **C9.** For any total item count `N` with `0 < N < bulkLoadThreshold`,
after initial activation completes, exactly the last `alwaysVisibleTail`
items are marked visible-by-default, and no item is Dehydrated. -/
theorem C9_small_chat_activation (s : VState)
    (h0 : 0 < s.items.length) (hN : s.items.length < s.opts.bulkLoadThreshold)
    (hd : ∀ m ∈ s.items, m.dehydrated = false)
    (hv : ∀ m ∈ s.items, m.inVisibleSet = false) :
    (∀ m ∈ (processExisting s).items, m.dehydrated = false) ∧
    ∀ i, i < s.items.length →
      (((processExisting s).items.getD i defaultMes).inVisibleSet = true ↔
        s.items.length - s.opts.alwaysVisibleTail ≤ i) := by
  rw [processExisting_small_eq s h0 hN, forceScrollToBottom_items]
  dsimp only
  constructor
  · exact markTailVisible_dehydrated _ s.items 0 hd
  · intro i hi
    rw [markTailVisible_getD _ s.items 0 i hi]
    by_cases hts : s.items.length - s.opts.alwaysVisibleTail ≤ 0 + i
    · rw [if_pos hts]
      exact iff_of_true rfl (by omega)
    · rw [if_neg hts]
      rw [hv _ (getD_mem hi)]
      exact iff_of_false (by simp) (by omega)

/-- Witness for C9 at the five-item chat `smallChat` with default options
(`alwaysVisibleTail = 3`): the visible set becomes exactly the last three
items and nothing is Dehydrated. -/
theorem C9_small_chat_activation_witness :
    (0 < smallChat.items.length ∧ smallChat.items.length < smallChat.opts.bulkLoadThreshold ∧
     (∀ m ∈ smallChat.items, m.dehydrated = false) ∧
     (∀ m ∈ smallChat.items, m.inVisibleSet = false)) ∧
    ((∀ m ∈ (processExisting smallChat).items, m.dehydrated = false) ∧
    ∀ i, i < smallChat.items.length →
      (((processExisting smallChat).items.getD i defaultMes).inVisibleSet = true ↔
        smallChat.items.length - smallChat.opts.alwaysVisibleTail ≤ i)) :=
  ⟨⟨by decide, by decide, by decide, by decide⟩,
   C9_small_chat_activation smallChat (by decide) (by decide) (by decide) (by decide)⟩

end ChatVirtualizer
